import Mathlib

/-!
Shallow embedding of the block Synchronizer (`src/node/src/synchronizer.rs`)
of the Ditto consensus node.

The synchronizer resolves a block's missing ancestors and payloads:
the facade (`get_previous_block`, `get_ancestors`, `register_payload`,
`cleanup`) reads the durable store and emits network / internal channel
messages, while a background waiter task multiplexes wait registrations,
wait completions and retry-timer ticks.

Modelling conventions:
* channel sends never fail here (in the code a failed send on an internal
  channel panics the process; we model the live process, collecting sent
  messages into output lists);
* asynchrony is modelled by an explicit event-loop step function
  (`loopStep`) driven by an externally chosen event sequence;
* the outcome of a single waiter computation (`Synchronizer::waiter`) is a
  function of the descriptor and of which race branch fires first.

`Block` and `QC` live in `messages.rs`, which is not part of the sources;
they are modelled from the spec's data model where marked.
-/

namespace Ditto

/-- Content hashes and store keys; the code uses `Digest`/`Vec<u8>`. -/
abbrev Digest := List Nat

abbrev RoundNumber := Nat

abbrev PublicKey := Nat

/-- Modelled from the spec: a `QuorumCertificate` is either the reserved
genesis sentinel or a real certificate over a parent digest
(`messages.rs` is not among the sources). -/
inductive QC where
  | genesisSentinel : QC
  | cert (parent : Digest) : QC
deriving DecidableEq, Repr

/-- The sentinel returned by `QC::genesis()`. -/
def QC.genesis : QC := QC.genesisSentinel

/-- Modelled from the spec: a `Block` carries a round, a quorum
certificate, a payload digest, and a derived content hash; the hash is
opaque to the synchronizer, so we model it as an attribute `dig`
(`messages.rs` is not among the sources). -/
structure Block where
  round : RoundNumber
  qc : QC
  payload : Digest
  dig : Digest
deriving DecidableEq, Repr

/-- `block.digest()`: the block's own content hash. -/
def Block.digest (b : Block) : Digest := b.dig

/-- `block.previous()`: the parent digest derived from the quorum
certificate; only evaluated on non-genesis blocks in the code. -/
def Block.previous (b : Block) : Digest :=
  match b.qc with
  | QC.genesisSentinel => []
  | QC.cert parent => parent

/-- Modelled from the spec: the distinguished genesis block returned by
`Block::genesis()` (`messages.rs` is not among the sources). -/
def Block.genesis : Block :=
  { round := 0, qc := QC.genesisSentinel, payload := [], dig := [0] }

/-- Error taxonomy of `ConsensusResult` as used by the synchronizer:
store read failures and `bincode` deserialization failures. -/
inductive SyncError where
  | storeError
  | serializationError
deriving DecidableEq, Repr

/-- A store cell: bytes that deserialize to a block, or bytes that do
not (e.g. a payload batch, or corrupt data). -/
inductive StoreCell where
  | blockBytes (b : Block)
  | rawBytes (n : Nat)
deriving DecidableEq, Repr

/-- The durable store: an association of keys to cells, plus the set of
keys on which a point read fails with a store error. -/
structure Store where
  entries : List (Digest × StoreCell)
  ioFail : List Digest
deriving DecidableEq, Repr

/-- `store.read(key)`: non-blocking point lookup, may fail. -/
def Store.read (s : Store) (k : Digest) : Except SyncError (Option StoreCell) :=
  if k ∈ s.ioFail then Except.error SyncError.storeError
  else Except.ok ((s.entries.find? (fun kv => kv.1 = k)).map (fun kv => kv.2))

/-- `NetMessage::SyncRequest(digest, name)`. -/
inductive NetMessage where
  | syncRequest (digest : Digest) (requester : PublicKey)
deriving DecidableEq, Repr

/-- `CoreMessage::LoopBack(block)`. -/
inductive CoreMessage where
  | loopBack (b : Block)
deriving DecidableEq, Repr

/-- The internal `SyncMessage` sent to the waiter task; the cancellation
receiver of a payload wait is identified by a channel id. -/
inductive SyncMessage where
  | syncParent (waitOn : Digest) (block : Block)
  | syncPayload (waitOn : Digest) (block : Block) (cancelChan : Nat)
deriving DecidableEq, Repr

/-- Output of one facade call: its return value plus the messages sent on
the network channel and on the waiter task's inbound channel. -/
structure CallOut (α : Type) where
  result : Except SyncError α
  net : List NetMessage
  inner : List SyncMessage
deriving Repr

/-- `Synchronizer::get_previous_block`: genesis short-circuit, else point
read of the parent; on a miss, emit one sync request and register one
ancestor wait, returning `none` ("not ready"). -/
def get_previous_block (name : PublicKey) (store : Store) (block : Block) :
    CallOut (Option Block) :=
  if block.qc = QC.genesis then
    { result := Except.ok (some Block.genesis), net := [], inner := [] }
  else
    let parent := block.previous
    match store.read parent with
    | Except.error e => { result := Except.error e, net := [], inner := [] }
    | Except.ok (some (StoreCell.blockBytes b)) =>
        { result := Except.ok (some b), net := [], inner := [] }
    | Except.ok (some (StoreCell.rawBytes _)) =>
        { result := Except.error SyncError.serializationError, net := [], inner := [] }
    | Except.ok none =>
        { result := Except.ok none,
          net := [NetMessage.syncRequest parent name],
          inner := [SyncMessage.syncParent parent block] }

/-- Result of `get_ancestors`: a typed store failure, "not ready", the
complete ancestor triple, or the `.expect` panic fired when an ancestor
of a delivered block is missing. -/
inductive AncResult where
  | err (e : SyncError)
  | notReady
  | ready (b0 b1 b2 : Block)
  | panicked
deriving DecidableEq, Repr

/-- Output of `get_ancestors`: result plus all messages sent. -/
structure AncOut where
  result : AncResult
  net : List NetMessage
  inner : List SyncMessage
deriving DecidableEq, Repr

/-- `Synchronizer::get_ancestors`: walk three parent links with
`get_previous_block`; `none` on the first lookup aborts with "not
ready", `none` on the later lookups is the fatal `.expect`. -/
def get_ancestors (name : PublicKey) (store : Store) (block : Block) : AncOut :=
  let o2 := get_previous_block name store block
  match o2.result with
  | Except.error e => { result := AncResult.err e, net := o2.net, inner := o2.inner }
  | Except.ok none => { result := AncResult.notReady, net := o2.net, inner := o2.inner }
  | Except.ok (some b2) =>
    let o1 := get_previous_block name store b2
    match o1.result with
    | Except.error e =>
        { result := AncResult.err e, net := o2.net ++ o1.net, inner := o2.inner ++ o1.inner }
    | Except.ok none =>
        { result := AncResult.panicked, net := o2.net ++ o1.net, inner := o2.inner ++ o1.inner }
    | Except.ok (some b1) =>
      let o0 := get_previous_block name store b1
      match o0.result with
      | Except.error e =>
          { result := AncResult.err e,
            net := o2.net ++ o1.net ++ o0.net, inner := o2.inner ++ o1.inner ++ o0.inner }
      | Except.ok none =>
          { result := AncResult.panicked,
            net := o2.net ++ o1.net ++ o0.net, inner := o2.inner ++ o1.inner ++ o0.inner }
      | Except.ok (some b0) =>
          { result := AncResult.ready b0 b1 b2,
            net := o2.net ++ o1.net ++ o0.net, inner := o2.inner ++ o1.inner ++ o0.inner }

/-- A wait descriptor handed to `Synchronizer::waiter`: the store key to
await, the block to deliver, and an optional cancellation receiver
(identified by channel id; `none` for ancestor waits). -/
structure WaiterDescr where
  waitOn : Digest
  deliver : Block
  cancellation : Option Nat
deriving DecidableEq, Repr

/-- Which race branch of a pending waiter computation fires. -/
inductive WaitEvent where
  | keyWritten
  | storeFailed
  | cancelSignal
deriving DecidableEq, Repr

/-- Embedding of `Synchronizer::waiter`: without a cancellation receiver
it awaits `notify_read` (success delivers the block, a store error
propagates); with one it races `notify_read` against the cancellation
signal, and a winning cancellation yields `Ok(None)` — no delivery,
independent of the store. `none` marks an event the descriptor cannot
produce (a cancel signal on an ancestor wait). -/
def waiterOutcome (d : WaiterDescr) : WaitEvent → Option (Except SyncError (Option Block))
  | WaitEvent.keyWritten => some (Except.ok (some d.deliver))
  | WaitEvent.storeFailed => some (Except.error SyncError.storeError)
  | WaitEvent.cancelSignal =>
      if d.cancellation.isSome then some (Except.ok none) else none

/-- State owned by the waiter task's event loop: the outstanding waiter
computations (`FuturesUnordered`) and the pending-parent dedup set
(`HashSet`, modelled as a duplicate-free list). -/
structure WaiterState where
  waiting : List WaiterDescr
  pendingParents : List Digest
deriving DecidableEq, Repr

/-- The waiter task starts with no outstanding waits. -/
def WaiterState.init : WaiterState := { waiting := [], pendingParents := [] }

/-- One event multiplexed by the loop's `select!`: an inbound
`SyncMessage` (or `none` for a closed channel), completion of the
`i`-th outstanding waiter with a given race outcome, a timer
notification, or a closed timer channel. -/
inductive LoopEvent where
  | inner (m : Option SyncMessage)
  | completion (i : Nat) (ev : WaitEvent)
  | timer
  | timerClosed
deriving DecidableEq, Repr

/-- Messages emitted by one loop iteration: loop-backs to the core, sync
requests to the network, the delay of a re-armed timer (if any), and
logged-and-dropped errors. -/
structure StepOut where
  core : List CoreMessage
  net : List NetMessage
  rearm : Option Nat
  logged : List SyncError
deriving DecidableEq, Repr

/-- The silent loop iteration. -/
def emptyOut : StepOut := { core := [], net := [], rearm := none, logged := [] }

/-- One iteration of the waiter task's event loop (the `select!` body in
`Synchronizer::new`):
* `SyncParent`: spawn a waiter only if the dependent block's digest is
  newly inserted into the pending-parent set;
* `SyncPayload`: always spawn a waiter;
* completion `Ok(Some(b))`: remove `b.digest()` from the pending-parent
  set and forward one loop-back to the core;
* completion `Ok(None)`: nothing; completion `Err(e)`: log and drop;
* timer notification: re-send a sync request for every digest in the
  pending-parent set, then re-arm the timer with the same delay. -/
def loopStep (name : PublicKey) (delay : Nat) (st : WaiterState) :
    LoopEvent → WaiterState × StepOut
  | LoopEvent.inner (some (SyncMessage.syncParent waitOn block)) =>
      if block.digest ∈ st.pendingParents then (st, emptyOut)
      else
        ({ waiting := st.waiting ++ [{ waitOn := waitOn, deliver := block, cancellation := none }],
           pendingParents := block.digest :: st.pendingParents }, emptyOut)
  | LoopEvent.inner (some (SyncMessage.syncPayload waitOn block c)) =>
      ({ waiting := st.waiting ++ [{ waitOn := waitOn, deliver := block, cancellation := some c }],
         pendingParents := st.pendingParents }, emptyOut)
  | LoopEvent.inner none => (st, emptyOut)
  | LoopEvent.completion i ev =>
      match st.waiting[i]? with
      | none => (st, emptyOut)
      | some d =>
        match waiterOutcome d ev with
        | none => (st, emptyOut)
        | some (Except.ok (some b)) =>
            ({ waiting := st.waiting.eraseIdx i,
               pendingParents := st.pendingParents.erase b.digest },
             { core := [CoreMessage.loopBack b], net := [], rearm := none, logged := [] })
        | some (Except.ok none) =>
            ({ waiting := st.waiting.eraseIdx i, pendingParents := st.pendingParents }, emptyOut)
        | some (Except.error e) =>
            ({ waiting := st.waiting.eraseIdx i, pendingParents := st.pendingParents },
             { core := [], net := [], rearm := none, logged := [e] })
  | LoopEvent.timer =>
      (st, { core := [],
             net := st.pendingParents.map (fun d => NetMessage.syncRequest d name),
             rearm := some delay, logged := [] })
  | LoopEvent.timerClosed => (st, emptyOut)

/-- Run the loop over a sequence of events, collecting each iteration's
outputs. -/
def runLoop (name : PublicKey) (delay : Nat) (st : WaiterState) :
    List LoopEvent → WaiterState × List StepOut
  | [] => (st, [])
  | e :: rest =>
      let so := loopStep name delay st e
      let rest' := runLoop name delay so.1 rest
      (rest'.1, so.2 :: rest'.2)

/-- All loop-back messages a run sends to the core. -/
def coreTrace (outs : List StepOut) : List CoreMessage :=
  (outs.map StepOut.core).flatten

/-- The cancellation sender stored in `pending_payloads` for a round:
its channel id and whether the receiving side has been closed. -/
structure CancelSender where
  chan : Nat
  closed : Bool
deriving DecidableEq, Repr

/-- The facade's `pending_payloads` registry (`HashMap<RoundNumber,
Sender<()>>`, modelled as an association list). -/
abbrev PendingPayloads := List (RoundNumber × CancelSender)

/-- `Synchronizer::register_payload`: if no payload wait is registered
for the block's round, create a capacity-1 cancellation channel (fresh
id `freshChan`), store its sender under the round, and submit one
`SyncPayload` descriptor; otherwise do nothing. -/
def register_payload (ps : PendingPayloads) (block : Block) (freshChan : Nat) :
    PendingPayloads × List SyncMessage :=
  if (ps.find? (fun kv => kv.1 = block.round)).isSome then (ps, [])
  else ((block.round, { chan := freshChan, closed := false }) :: ps,
        [SyncMessage.syncPayload block.payload block freshChan])

/-- `Synchronizer::cleanup`: send a cancellation signal on every open
channel registered under a round strictly below `round`, then retain
exactly the entries whose round is strictly below `round` (the code's
`retain(|k, _| k < &round)`). Returns the new registry and the channel
ids signalled. -/
def cleanup (ps : PendingPayloads) (round : RoundNumber) :
    PendingPayloads × List Nat :=
  ((ps.filter (fun kv => decide (kv.1 < round))),
   ((ps.filter (fun kv => !kv.2.closed && decide (kv.1 < round))).map (fun kv => kv.2.chan)))

/-- Events that carry no payload-wait submission; ancestor-wait
invariants are stated over such traces. -/
def parentOnly : LoopEvent → Bool
  | LoopEvent.inner (some (SyncMessage.syncPayload _ _ _)) => false
  | _ => true

/-- Whether an event submits a wait descriptor whose delivered block is
`b`. -/
def submitsBlock (e : LoopEvent) (b : Block) : Bool :=
  match e with
  | LoopEvent.inner (some (SyncMessage.syncParent _ blk)) => blk = b
  | LoopEvent.inner (some (SyncMessage.syncPayload _ blk _)) => blk = b
  | _ => false

/-- Invariant of the waiter task on ancestor-only traces: the
pending-parent set is duplicate-free, every outstanding wait is an
ancestor wait whose dependent block's digest is registered in the set,
and no two outstanding waits share a dependent digest (at most one
outstanding ancestor wait per digest). -/
def AncWaitInv (st : WaiterState) : Prop :=
  st.pendingParents.Nodup ∧
  (∀ d ∈ st.waiting, d.cancellation = none ∧ d.deliver.digest ∈ st.pendingParents) ∧
  st.waiting.Pairwise (fun a b => a.deliver.digest ≠ b.deliver.digest)

/-- A sample non-genesis block whose parent digest `[1]` is absent from
the empty store. -/
def blockA : Block := { round := 1, qc := QC.cert [1], payload := [9], dig := [2] }

/-- A second block with the same missing parent digest `[1]` but a
different content hash. -/
def blockB : Block := { round := 1, qc := QC.cert [1], payload := [9], dig := [3] }

/-- A block of round 5, used for payload-registration scenarios. -/
def blockR5 : Block := { round := 5, qc := QC.cert [4], payload := [7], dig := [5] }

/-- The empty store: every key is missing, no key fails. -/
def emptyStore : Store := { entries := [], ioFail := [] }

theorem ancWaitInv_step (name : PublicKey) (delay : Nat) (st : WaiterState)
    (e : LoopEvent) (hpe : parentOnly e = true) (hinv : AncWaitInv st) :
    AncWaitInv (loopStep name delay st e).1 := by
  obtain ⟨hnd, hmem, hpw⟩ := hinv
  cases e with
  | inner m =>
    cases m with
    | none => simpa [loopStep] using ⟨hnd, hmem, hpw⟩
    | some msg =>
      cases msg with
      | syncPayload waitOn block c => simp [parentOnly] at hpe
      | syncParent waitOn block =>
        by_cases hin : block.digest ∈ st.pendingParents
        · simpa [loopStep, hin] using ⟨hnd, hmem, hpw⟩
        · have hred : (loopStep name delay st
              (LoopEvent.inner (some (SyncMessage.syncParent waitOn block)))).1 =
              { waiting := st.waiting ++
                  [{ waitOn := waitOn, deliver := block, cancellation := none }],
                pendingParents := block.digest :: st.pendingParents } := by
            simp [loopStep, hin]
          rw [hred]
          refine ⟨List.nodup_cons.mpr ⟨hin, hnd⟩, ?_, ?_⟩
          · intro d hd
            simp only [List.mem_append, List.mem_singleton] at hd
            rcases hd with hd | hd
            · exact ⟨(hmem d hd).1, List.mem_cons_of_mem _ (hmem d hd).2⟩
            · subst hd
              exact ⟨rfl, List.mem_cons_self _ _⟩
          · refine List.pairwise_append.mpr ⟨hpw, List.pairwise_singleton _ _, ?_⟩
            intro a ha b hb
            simp only [List.mem_singleton] at hb
            subst hb
            intro hcontra
            exact hin (hcontra ▸ (hmem a ha).2)
  | completion i ev =>
    cases hg : st.waiting[i]? with
    | none => simpa [loopStep, hg] using ⟨hnd, hmem, hpw⟩
    | some d =>
      have hdmem : d ∈ st.waiting := by
        obtain ⟨hi, he⟩ := List.getElem?_eq_some.mp hg
        exact he ▸ List.getElem_mem hi
      have hdc : d.cancellation = none := (hmem d hdmem).1
      have herase_mem : ∀ d' ∈ st.waiting.eraseIdx i, d' ∈ st.waiting := by
        intro d' hd'
        exact (List.eraseIdx_sublist st.waiting i).mem hd'
      have herase_pw : (st.waiting.eraseIdx i).Pairwise
          (fun a b => a.deliver.digest ≠ b.deliver.digest) :=
        hpw.sublist (List.eraseIdx_sublist st.waiting i)
      cases ev with
      | keyWritten =>
        have hred : (loopStep name delay st (LoopEvent.completion i WaitEvent.keyWritten)).1 =
            { waiting := st.waiting.eraseIdx i,
              pendingParents := st.pendingParents.erase d.deliver.digest } := by
          simp [loopStep, hg, waiterOutcome]
        rw [hred]
        refine ⟨hnd.erase _, ?_, herase_pw⟩
        intro d' hd'
        have hmem' := herase_mem d' hd'
        refine ⟨(hmem d' hmem').1, ?_⟩
        have hne : d'.deliver.digest ≠ d.deliver.digest := by
          obtain ⟨hi, he⟩ := List.getElem?_eq_some.mp hg
          obtain ⟨j, hj, hji, hje⟩ := List.mem_eraseIdx_iff_getElem.mp hd'
          have hpg := List.pairwise_iff_getElem.mp hpw
          rcases Nat.lt_or_ge j i with hlt | hge
          · exact fun hc => (hpg j i hj hi hlt) (hje ▸ he ▸ hc)
          · have hgt : i < j := Nat.lt_of_le_of_ne hge (fun hc => hji hc.symm)
            exact fun hc => (hpg i j hi hj hgt) (he ▸ hje ▸ hc.symm)
        exact (List.mem_erase_of_ne hne).mpr (hmem d' hmem').2
      | storeFailed =>
        have hred : (loopStep name delay st (LoopEvent.completion i WaitEvent.storeFailed)).1 =
            { waiting := st.waiting.eraseIdx i,
              pendingParents := st.pendingParents } := by
          simp [loopStep, hg, waiterOutcome]
        rw [hred]
        refine ⟨hnd, ?_, herase_pw⟩
        intro d' hd'
        exact hmem d' (herase_mem d' hd')
      | cancelSignal =>
        simpa [loopStep, hg, waiterOutcome, hdc] using ⟨hnd, hmem, hpw⟩
  | timer => simpa [loopStep] using ⟨hnd, hmem, hpw⟩
  | timerClosed => simpa [loopStep] using ⟨hnd, hmem, hpw⟩

theorem ancWaitInv_run (name : PublicKey) (delay : Nat) :
    ∀ (evs : List LoopEvent) (st : WaiterState),
      (∀ e ∈ evs, parentOnly e = true) → AncWaitInv st →
      AncWaitInv (runLoop name delay st evs).1 := by
  intro evs
  induction evs with
  | nil => intro st _ hinv; simpa [runLoop] using hinv
  | cons e rest ih =>
    intro st hpe hinv
    simp only [runLoop]
    exact ih _ (fun e' he' => hpe e' (List.mem_cons_of_mem _ he'))
      (ancWaitInv_step name delay st e (hpe e (List.mem_cons_self _ _)) hinv)

theorem loopStep_core_mem (name : PublicKey) (delay : Nat) (st : WaiterState)
    (e : LoopEvent) (b : Block)
    (h : CoreMessage.loopBack b ∈ (loopStep name delay st e).2.core) :
    ∃ d ∈ st.waiting, d.deliver = b := by
  cases e with
  | inner m =>
    cases m with
    | none => simp [loopStep, emptyOut] at h
    | some msg =>
      cases msg with
      | syncParent waitOn block =>
        by_cases hin : block.digest ∈ st.pendingParents
        · simp [loopStep, hin, emptyOut] at h
        · simp [loopStep, hin, emptyOut] at h
      | syncPayload waitOn block c => simp [loopStep, emptyOut] at h
  | completion i ev =>
    cases hg : st.waiting[i]? with
    | none => simp [loopStep, hg, emptyOut] at h
    | some d =>
      have hdmem : d ∈ st.waiting := by
        obtain ⟨hi, he⟩ := List.getElem?_eq_some.mp hg
        exact he ▸ List.getElem_mem hi
      cases ev with
      | keyWritten =>
        simp only [loopStep, hg, waiterOutcome, List.mem_singleton] at h
        exact ⟨d, hdmem, by injection h.symm⟩
      | storeFailed => simp [loopStep, hg, waiterOutcome, emptyOut] at h
      | cancelSignal =>
        by_cases hc : d.cancellation.isSome
        · simp [loopStep, hg, waiterOutcome, hc, emptyOut] at h
        · simp [loopStep, hg, waiterOutcome, hc, emptyOut] at h
  | timer => simp [loopStep] at h
  | timerClosed => simp [loopStep, emptyOut] at h

theorem loopStep_waiting_mem (name : PublicKey) (delay : Nat) (st : WaiterState)
    (e : LoopEvent) (d' : WaiterDescr)
    (h : d' ∈ (loopStep name delay st e).1.waiting) :
    d' ∈ st.waiting ∨ submitsBlock e d'.deliver = true := by
  cases e with
  | inner m =>
    cases m with
    | none => exact Or.inl (by simpa [loopStep, emptyOut] using h)
    | some msg =>
      cases msg with
      | syncParent waitOn block =>
        by_cases hin : block.digest ∈ st.pendingParents
        · exact Or.inl (by simpa [loopStep, hin, emptyOut] using h)
        · simp only [loopStep, hin, if_false, List.mem_append, List.mem_singleton] at h
          rcases h with h | h
          · exact Or.inl h
          · subst h
            exact Or.inr (by simp [submitsBlock])
      | syncPayload waitOn block c =>
        simp only [loopStep, List.mem_append, List.mem_singleton] at h
        rcases h with h | h
        · exact Or.inl h
        · subst h
          exact Or.inr (by simp [submitsBlock])
  | completion i ev =>
    cases hg : st.waiting[i]? with
    | none => exact Or.inl (by simpa [loopStep, hg, emptyOut] using h)
    | some d =>
      cases ev with
      | keyWritten =>
        simp only [loopStep, hg, waiterOutcome] at h
        exact Or.inl ((List.eraseIdx_sublist st.waiting i).mem h)
      | storeFailed =>
        simp only [loopStep, hg, waiterOutcome] at h
        exact Or.inl ((List.eraseIdx_sublist st.waiting i).mem h)
      | cancelSignal =>
        by_cases hc : d.cancellation.isSome
        · simp only [loopStep, hg, waiterOutcome, hc, if_true] at h
          exact Or.inl ((List.eraseIdx_sublist st.waiting i).mem h)
        · exact Or.inl (by simpa [loopStep, hg, waiterOutcome, hc, emptyOut] using h)
  | timer => exact Or.inl (by simpa [loopStep] using h)
  | timerClosed => exact Or.inl (by simpa [loopStep, emptyOut] using h)

theorem runLoop_no_delivery (name : PublicKey) (delay : Nat) :
    ∀ (evs : List LoopEvent) (st : WaiterState) (b : Block),
      (∀ d ∈ st.waiting, d.deliver ≠ b) →
      (∀ e ∈ evs, submitsBlock e b = false) →
      CoreMessage.loopBack b ∉ coreTrace (runLoop name delay st evs).2 := by
  intro evs
  induction evs with
  | nil => intro st b _ _ h; simp [runLoop, coreTrace] at h
  | cons e rest ih =>
    intro st b hw he h
    simp only [runLoop, coreTrace, List.map_cons, List.flatten_cons, List.mem_append] at h
    rcases h with h | h
    · obtain ⟨d, hd, hdel⟩ := loopStep_core_mem name delay st e b h
      exact hw d hd hdel
    · refine ih (loopStep name delay st e).1 b ?_
        (fun e' he' => he e' (List.mem_cons_of_mem _ he')) (by simpa [coreTrace] using h)
      intro d hd hdel
      rcases loopStep_waiting_mem name delay st e d hd with hmem | hsub
      · exact hw d hmem hdel
      · rw [hdel] at hsub
        rw [he e (List.mem_cons_self _ _)] at hsub
        exact Bool.false_ne_true hsub

/-- Claim C7: for every block whose quorum certificate equals the
genesis sentinel, `get_previous_block` returns the distinguished genesis
block immediately, emits no network request and no wait registration,
and its output is independent of the store (no store access). -/
theorem genesis_previous_block_no_store_access
    (name : PublicKey) (store store' : Store) (b : Block) (h : b.qc = QC.genesis) :
    get_previous_block name store b =
      { result := Except.ok (some Block.genesis), net := [], inner := [] } ∧
    get_previous_block name store b = get_previous_block name store' b := by
  constructor
  · simp [get_previous_block, h]
  · simp [get_previous_block, h]

/-- Witness for claim C7, at the genesis block over the empty store. -/
theorem genesis_previous_block_no_store_access_witness :
    Block.genesis.qc = QC.genesis ∧
    get_previous_block 0 emptyStore Block.genesis =
      { result := Except.ok (some Block.genesis), net := [], inner := [] } :=
  ⟨rfl, (genesis_previous_block_no_store_access 0 emptyStore emptyStore Block.genesis rfl).1⟩

/-- Claim C6: `register_payload` is idempotent per round: with an entry
already registered for the block's round it changes nothing and submits
nothing; with no entry it stores the fresh cancellation sender under the
round and submits exactly one payload wait descriptor carrying the
block's payload digest, the block, and the channel's receiver half; and
a second registration for the same round is always a no-op. (The
capacity-1 property of the cancellation channel is a channel-runtime
fact not represented in this embedding; a channel is identified by its
id.) -/
theorem register_payload_idempotent_per_round
    (ps : PendingPayloads) (b : Block) (c c2 : Nat) :
    ((ps.find? (fun kv => kv.1 = b.round)).isSome = true →
       register_payload ps b c = (ps, [])) ∧
    ((ps.find? (fun kv => kv.1 = b.round)).isSome = false →
       register_payload ps b c =
         ((b.round, { chan := c, closed := false }) :: ps,
          [SyncMessage.syncPayload b.payload b c])) ∧
    register_payload (register_payload ps b c).1 b c2 = ((register_payload ps b c).1, []) := by
  refine ⟨?_, ?_, ?_⟩
  · intro h
    simp [register_payload, h]
  · intro h
    simp [register_payload, h]
  · by_cases h : (ps.find? (fun kv => kv.1 = b.round)).isSome
    · simp [register_payload, h]
    · simp only [Bool.not_eq_true] at h
      simp [register_payload, h]

/-- Witness for claim C6: re-registering round 5 changes nothing. -/
theorem register_payload_idempotent_per_round_witness :
    (([((5 : RoundNumber), ({ chan := 1, closed := false } : CancelSender))].find?
        (fun kv => kv.1 = blockR5.round)).isSome = true) ∧
    register_payload [(5, { chan := 1, closed := false })] blockR5 2 =
      ([(5, { chan := 1, closed := false })], []) :=
  ⟨by decide,
   (register_payload_idempotent_per_round
      [(5, { chan := 1, closed := false })] blockR5 2 3).1 (by decide)⟩

/-- Claim C5 (code bug): `cleanup(7)` on a registry holding open payload
waits for rounds 5 and 10 signals round 5's channel as the claim says,
but then retains exactly the round-5 entry and drops the round-10 entry:
the code's `retain(|k, _| k < &round)` keeps the stale rounds it just
cancelled and removes the still-live ones, the inverse of the claimed
garbage collection. -/
theorem cleanup_retains_stale_rounds_eval :
    cleanup [(5, { chan := 1, closed := false }), (10, { chan := 2, closed := false })] 7 =
      ([(5, { chan := 1, closed := false })], [1]) := by
  rfl

/-- Claim C10 (code bug): register a payload wait for round 5, run
`cleanup(10)` (which signals channel 1), then register round 5 again
with a fresh channel: because `cleanup` retained the round-5 entry, the
second registration is a no-op — no new entry, no new wait descriptor —
where the claim expects a fresh registration. -/
theorem reregistration_after_cleanup_blocked_eval :
    (cleanup (register_payload [] blockR5 1).1 10).2 = [1] ∧
    (cleanup (register_payload [] blockR5 1).1 10).1 =
      [(5, { chan := 1, closed := false })] ∧
    register_payload (cleanup (register_payload [] blockR5 1).1 10).1 blockR5 2 =
      ([(5, { chan := 1, closed := false })], []) :=
  ⟨rfl, rfl, rfl⟩

/-- Claim C2 (code bug): for a block `blockA` (own digest `[2]`) whose
missing parent has digest `[1]`, the facade's original sync request
carries `[1]`, but the waiter task inserts the dependent block's own
digest `[2]` into the pending-parent set, so the retry-timer tick
re-sends a sync request carrying `[2]` — not identical to the original
request for the missing dependency — though it does re-arm the timer
with the same delay. -/
theorem retry_resends_dependent_digest_not_parent :
    (get_previous_block 0 emptyStore blockA).net = [NetMessage.syncRequest [1] 0] ∧
    (loopStep 0 9 (loopStep 0 9 WaiterState.init
        (LoopEvent.inner (some (SyncMessage.syncParent [1] blockA)))).1
        LoopEvent.timer).2 =
      { core := [], net := [NetMessage.syncRequest [2] 0], rearm := some 9, logged := [] } ∧
    NetMessage.syncRequest ([2] : Digest) 0 ≠ NetMessage.syncRequest ([1] : Digest) 0 :=
  ⟨rfl, rfl, by decide⟩

/-- Claim C1 is false as stated: `blockA` and `blockB` both reference
the missing parent digest `[1]`. Two `get_previous_block` calls for that
parent issue two network sync requests, not one (the facade sends
unconditionally on a store miss), and the waiter task registers two
waits, not one, because its dedup set is keyed by the dependent block's
own digest (`[2]` resp. `[3]`), not by the missing parent digest. -/
theorem dedup_claim_counterexample :
    blockA.previous = blockB.previous ∧
    (get_previous_block 0 emptyStore blockA).result = Except.ok none ∧
    (get_previous_block 0 emptyStore blockB).result = Except.ok none ∧
    ((get_previous_block 0 emptyStore blockA).net ++
      (get_previous_block 0 emptyStore blockB).net).length = 2 ∧
    (runLoop 0 9 WaiterState.init
      [LoopEvent.inner (some (SyncMessage.syncParent blockA.previous blockA)),
       LoopEvent.inner (some (SyncMessage.syncParent blockB.previous blockB))]).1.waiting.length
      = 2 ∧
    (runLoop 0 9 WaiterState.init
      [LoopEvent.inner (some (SyncMessage.syncParent blockA.previous blockA)),
       LoopEvent.inner (some (SyncMessage.syncParent blockB.previous blockB))]).1.pendingParents
      = [[3], [2]] :=
  ⟨rfl, rfl, rfl, rfl, rfl, rfl⟩

/-- Claim C1 as amended: a `get_previous_block` call whose parent is
missing always issues exactly one network sync request and submits
exactly one ancestor wait descriptor (so two calls issue two requests),
and the waiter task deduplicates registrations by the dependent block's
own digest: submitting the same block twice registers exactly one wait,
and on ancestor-only traces at most one outstanding ancestor wait exists
per dependent-block digest at any time. -/
theorem sync_request_per_call_and_dedup_by_block_digest
    (name : PublicKey) (delay : Nat) (store : Store) (b : Block)
    (hqc : ¬b.qc = QC.genesis) (hmiss : store.read b.previous = Except.ok none) :
    (get_previous_block name store b).net = [NetMessage.syncRequest b.previous name] ∧
    (get_previous_block name store b).inner = [SyncMessage.syncParent b.previous b] ∧
    (get_previous_block name store b).result = Except.ok none ∧
    (runLoop name delay WaiterState.init
        [LoopEvent.inner (some (SyncMessage.syncParent b.previous b)),
         LoopEvent.inner (some (SyncMessage.syncParent b.previous b))]).1 =
      { waiting := [{ waitOn := b.previous, deliver := b, cancellation := none }],
        pendingParents := [b.digest] } ∧
    (∀ (evs : List LoopEvent) (st : WaiterState),
       (∀ e ∈ evs, parentOnly e = true) → AncWaitInv st →
       AncWaitInv (runLoop name delay st evs).1) := by
  refine ⟨?_, ?_, ?_, ?_, ancWaitInv_run name delay⟩
  · simp [get_previous_block, hqc, hmiss]
  · simp [get_previous_block, hqc, hmiss]
  · simp [get_previous_block, hqc, hmiss]
  · simp [runLoop, loopStep, WaiterState.init, emptyOut]

/-- Witness for the amended claim C1, at `blockA` over the empty store. -/
theorem sync_request_per_call_and_dedup_by_block_digest_witness :
    (¬blockA.qc = QC.genesis) ∧
    emptyStore.read blockA.previous = Except.ok none ∧
    (runLoop 0 9 WaiterState.init
        [LoopEvent.inner (some (SyncMessage.syncParent blockA.previous blockA)),
         LoopEvent.inner (some (SyncMessage.syncParent blockA.previous blockA))]).1 =
      { waiting := [{ waitOn := blockA.previous, deliver := blockA, cancellation := none }],
        pendingParents := [blockA.digest] } :=
  ⟨by decide, rfl,
   (sync_request_per_call_and_dedup_by_block_digest 0 9 emptyStore blockA
      (by decide) rfl).2.2.2.1⟩

/-- Claim C3: `get_ancestors` returns "not ready" whenever the first
parent lookup does; a successful return carries the complete ordered
triple `(b0, b1, b2)`, oldest first, where `b2` resolves from the input
block, `b1` from `b2` and `b0` from `b1`; and every outcome is a typed
error, "not ready", the fatal missing-ancestor panic, or a complete
triple — never a partial one- or two-element result. -/
theorem get_ancestors_complete_triple_or_not_ready
    (name : PublicKey) (store : Store) (block : Block) :
    ((get_previous_block name store block).result = Except.ok none →
       (get_ancestors name store block).result = AncResult.notReady) ∧
    (∀ b0 b1 b2, (get_ancestors name store block).result = AncResult.ready b0 b1 b2 →
       (get_previous_block name store block).result = Except.ok (some b2) ∧
       (get_previous_block name store b2).result = Except.ok (some b1) ∧
       (get_previous_block name store b1).result = Except.ok (some b0)) ∧
    ((∃ e, (get_ancestors name store block).result = AncResult.err e) ∨
     (get_ancestors name store block).result = AncResult.notReady ∨
     (get_ancestors name store block).result = AncResult.panicked ∨
     (∃ b0 b1 b2, (get_ancestors name store block).result = AncResult.ready b0 b1 b2)) := by
  refine ⟨?_, ?_, ?_⟩
  · intro h
    simp [get_ancestors, h]
  · intro b0 b1 b2 h
    cases h2 : (get_previous_block name store block).result with
    | error e => simp [get_ancestors, h2] at h
    | ok ob =>
      cases ob with
      | none => simp [get_ancestors, h2] at h
      | some b2c =>
        cases h1 : (get_previous_block name store b2c).result with
        | error e => simp [get_ancestors, h2, h1] at h
        | ok ob1 =>
          cases ob1 with
          | none => simp [get_ancestors, h2, h1] at h
          | some b1c =>
            cases h0 : (get_previous_block name store b1c).result with
            | error e => simp [get_ancestors, h2, h1, h0] at h
            | ok ob0 =>
              cases ob0 with
              | none => simp [get_ancestors, h2, h1, h0] at h
              | some b0c =>
                simp only [get_ancestors, h2, h1, h0] at h
                injection h with e0 e1 e2
                have h1' : (get_previous_block name store b2).result =
                    Except.ok (some b1) := by rw [← e2, h1, e1]
                have h0' : (get_previous_block name store b1).result =
                    Except.ok (some b0) := by rw [← e1, h0, e0]
                exact ⟨by rw [e2], h1', h0'⟩
  · cases h2 : (get_previous_block name store block).result with
    | error e => exact Or.inl ⟨e, by simp [get_ancestors, h2]⟩
    | ok ob =>
      cases ob with
      | none => exact Or.inr (Or.inl (by simp [get_ancestors, h2]))
      | some b2c =>
        cases h1 : (get_previous_block name store b2c).result with
        | error e => exact Or.inl ⟨e, by simp [get_ancestors, h2, h1]⟩
        | ok ob1 =>
          cases ob1 with
          | none => exact Or.inr (Or.inr (Or.inl (by simp [get_ancestors, h2, h1])))
          | some b1c =>
            cases h0 : (get_previous_block name store b1c).result with
            | error e => exact Or.inl ⟨e, by simp [get_ancestors, h2, h1, h0]⟩
            | ok ob0 =>
              cases ob0 with
              | none => exact Or.inr (Or.inr (Or.inl (by simp [get_ancestors, h2, h1, h0])))
              | some b0c =>
                exact Or.inr (Or.inr (Or.inr ⟨b0c, b1c, b2c,
                  by simp [get_ancestors, h2, h1, h0]⟩))

/-- Witness for claim C3: over the empty store, `blockA`'s first parent
lookup is "not ready", so `get_ancestors` returns "not ready". -/
theorem get_ancestors_complete_triple_or_not_ready_witness :
    (get_previous_block 0 emptyStore blockA).result = Except.ok none ∧
    (get_ancestors 0 emptyStore blockA).result = AncResult.notReady :=
  ⟨rfl, (get_ancestors_complete_triple_or_not_ready 0 emptyStore blockA).1 rfl⟩

/-- Claim C4: a payload wait whose cancellation signal wins the race
returns "no delivery" (`Ok(None)`, independently of the store); the
event loop then drops the completed wait without forwarding anything and
without touching the pending-parent set; and once no outstanding wait
delivers a block `b` and no later event submits `b` again, no loop-back
message carrying `b` is ever forwarded to the core — in particular a
cancelled payload wait never delivers its block, even if the store is
later populated with the awaited key. -/
theorem cancelled_payload_wait_never_delivers (name : PublicKey) (delay : Nat) :
    (∀ d : WaiterDescr, d.cancellation.isSome = true →
       waiterOutcome d WaitEvent.cancelSignal = some (Except.ok none)) ∧
    (∀ (st : WaiterState) (i : Nat) (d : WaiterDescr),
       st.waiting[i]? = some d → d.cancellation.isSome = true →
       loopStep name delay st (LoopEvent.completion i WaitEvent.cancelSignal) =
         ({ waiting := st.waiting.eraseIdx i, pendingParents := st.pendingParents },
          emptyOut)) ∧
    (∀ (evs : List LoopEvent) (st : WaiterState) (b : Block),
       (∀ d ∈ st.waiting, d.deliver ≠ b) →
       (∀ e ∈ evs, submitsBlock e b = false) →
       CoreMessage.loopBack b ∉ coreTrace (runLoop name delay st evs).2) := by
  refine ⟨?_, ?_, runLoop_no_delivery name delay⟩
  · intro d h
    simp [waiterOutcome, h]
  · intro st i d hg hc
    simp [loopStep, hg, waiterOutcome, hc]

/-- Witness for claim C4: cancelling the only outstanding payload wait
(for `blockR5`) forwards nothing, and afterwards even a store-population
completion event and a timer tick deliver no loop-back for `blockR5`. -/
theorem cancelled_payload_wait_never_delivers_witness :
    loopStep 0 9
        { waiting := [{ waitOn := [7], deliver := blockR5, cancellation := some 1 }],
          pendingParents := [] }
        (LoopEvent.completion 0 WaitEvent.cancelSignal) =
      ({ waiting := [], pendingParents := [] }, emptyOut) ∧
    CoreMessage.loopBack blockR5 ∉ coreTrace (runLoop 0 9
        { waiting := [], pendingParents := [] }
        [LoopEvent.completion 0 WaitEvent.keyWritten, LoopEvent.timer]).2 :=
  ⟨(cancelled_payload_wait_never_delivers 0 9).2.1 _ 0 _ rfl rfl,
   (cancelled_payload_wait_never_delivers 0 9).2.2 _ _ _ (by simp) (by decide)⟩

/-- Claim C8: when the `i`-th outstanding wait completes with a
delivered block, the loop removes that block's digest from the
pending-parent set and forwards exactly one loop-back message carrying
it (and nothing else); for a payload wait whose block digest is not in
the set the removal is a no-op; and under the ancestor-wait invariant no
other outstanding wait shares the digest and the digest leaves the set,
so the removal-plus-forward happens exactly once per registered
digest. -/
theorem completion_removes_digest_then_forwards_once
    (name : PublicKey) (delay : Nat) (st : WaiterState) (i : Nat) (d : WaiterDescr)
    (hg : st.waiting[i]? = some d) :
    loopStep name delay st (LoopEvent.completion i WaitEvent.keyWritten) =
      ({ waiting := st.waiting.eraseIdx i,
         pendingParents := st.pendingParents.erase d.deliver.digest },
       { core := [CoreMessage.loopBack d.deliver], net := [], rearm := none, logged := [] }) ∧
    (d.deliver.digest ∉ st.pendingParents →
       st.pendingParents.erase d.deliver.digest = st.pendingParents) ∧
    (AncWaitInv st →
       (∀ d' ∈ (loopStep name delay st
           (LoopEvent.completion i WaitEvent.keyWritten)).1.waiting,
          d'.deliver.digest ≠ d.deliver.digest) ∧
       d.deliver.digest ∉ (loopStep name delay st
           (LoopEvent.completion i WaitEvent.keyWritten)).1.pendingParents) := by
  have hred : loopStep name delay st (LoopEvent.completion i WaitEvent.keyWritten) =
      ({ waiting := st.waiting.eraseIdx i,
         pendingParents := st.pendingParents.erase d.deliver.digest },
       { core := [CoreMessage.loopBack d.deliver], net := [], rearm := none, logged := [] }) := by
    simp [loopStep, hg, waiterOutcome]
  refine ⟨hred, fun h => List.erase_of_not_mem h, ?_⟩
  rintro ⟨hnd, hmem, hpw⟩
  rw [hred]
  constructor
  · intro d' hd'
    obtain ⟨hi, he⟩ := List.getElem?_eq_some.mp hg
    obtain ⟨j, hj, hji, hje⟩ := List.mem_eraseIdx_iff_getElem.mp hd'
    have hpg := List.pairwise_iff_getElem.mp hpw
    rcases Nat.lt_or_ge j i with hlt | hge
    · exact fun hc => (hpg j i hj hi hlt) (hje ▸ he ▸ hc)
    · have hgt : i < j := Nat.lt_of_le_of_ne hge (fun hc => hji hc.symm)
      exact fun hc => (hpg i j hi hj hgt) (he ▸ hje ▸ hc.symm)
  · exact hnd.not_mem_erase

/-- Witness for claim C8: the only outstanding ancestor wait (for
`blockA`, digest `[2]`) completes; the digest is removed and exactly one
loop-back is forwarded. -/
theorem completion_removes_digest_then_forwards_once_witness :
    loopStep 0 9
        { waiting := [{ waitOn := [1], deliver := blockA, cancellation := none }],
          pendingParents := [[2]] }
        (LoopEvent.completion 0 WaitEvent.keyWritten) =
      ({ waiting := [], pendingParents := [] },
       { core := [CoreMessage.loopBack blockA], net := [], rearm := none, logged := [] }) :=
  (completion_removes_digest_then_forwards_once 0 9
    { waiting := [{ waitOn := [1], deliver := blockA, cancellation := none }],
      pendingParents := [[2]] } 0 _ rfl).1

/-- Claim C9: a failing store read surfaces as a typed store error from
`get_previous_block`, undeserializable bytes surface as a typed
serialization error, `get_ancestors` propagates any such failure of its
first lookup to the caller, and a store failure inside a background
waiter computation is logged and dropped by the event loop: the wait is
discarded, no loop-back or network message is sent, no timer is armed,
and the pending-parent set is left unchanged (no retry). -/
theorem store_errors_propagate_or_logged (name : PublicKey) (delay : Nat) :
    (∀ (store : Store) (b : Block), ¬b.qc = QC.genesis → b.previous ∈ store.ioFail →
       (get_previous_block name store b).result = Except.error SyncError.storeError) ∧
    (∀ (store : Store) (b : Block) (n : Nat), ¬b.qc = QC.genesis →
       store.read b.previous = Except.ok (some (StoreCell.rawBytes n)) →
       (get_previous_block name store b).result = Except.error SyncError.serializationError) ∧
    (∀ (store : Store) (b : Block) (e : SyncError),
       (get_previous_block name store b).result = Except.error e →
       (get_ancestors name store b).result = AncResult.err e) ∧
    (∀ (st : WaiterState) (i : Nat) (d : WaiterDescr), st.waiting[i]? = some d →
       loopStep name delay st (LoopEvent.completion i WaitEvent.storeFailed) =
         ({ waiting := st.waiting.eraseIdx i, pendingParents := st.pendingParents },
          { core := [], net := [], rearm := none, logged := [SyncError.storeError] })) := by
  refine ⟨?_, ?_, ?_, ?_⟩
  · intro store b hqc hfail
    simp [get_previous_block, hqc, Store.read, hfail]
  · intro store b n hqc hraw
    simp [get_previous_block, hqc, hraw]
  · intro store b e h
    simp [get_ancestors, h]
  · intro st i d hg
    simp [loopStep, hg, waiterOutcome]

/-- Witness for claim C9: reading `blockA`'s parent digest `[1]` from a
store that fails on that key yields a typed store error, and the
corresponding `get_ancestors` call propagates it. -/
theorem store_errors_propagate_or_logged_witness :
    (¬blockA.qc = QC.genesis) ∧
    blockA.previous ∈ (Store.mk [] [[1]]).ioFail ∧
    (get_previous_block 0 (Store.mk [] [[1]]) blockA).result =
      Except.error SyncError.storeError ∧
    (get_ancestors 0 (Store.mk [] [[1]]) blockA).result =
      AncResult.err SyncError.storeError :=
  ⟨by decide, by decide,
   (store_errors_propagate_or_logged 0 9).1 _ blockA (by decide) (by decide),
   (store_errors_propagate_or_logged 0 9).2.2.1 _ blockA SyncError.storeError
     ((store_errors_propagate_or_logged 0 9).1 _ blockA (by decide) (by decide))⟩

end Ditto
